import Mathlib

/-!
Verification of the temboard task-scheduling subsystem and its callers.

Shallow embedding of:
- `src/temboardagent/plugins/maintenance/__init__.py` (parameter patterns,
  HTTP-facing datetime handling, registered worker handlers),
- `src/temboardui/__main__.py` (scheduler construction, socket / task-list paths),
- `src/temboardagent/configuration.py` (`MergedConfiguration.add_values` / `load`),
- `src/temboardagent/plugins/pgconf/functions.py` (`post_pg_ident`).

The task-manager core (`temboardagent.toolkit.taskmanager`) is not part of the
source tree; where a claim depends on it, the relevant behaviour is modelled
from the specification and each such definition says so in its doc comment.
-/

/-! ## Character classes used by the source regexes -/

/-- The character class `[0-9]` of the source patterns. -/
def isAsciiDigit (c : Char) : Bool :=
  '0' ≤ c && c ≤ '9'

/-- The character class `[0-9a-f]` of `T_OPERATION_ID`. -/
def isLowerHexDigit (c : Char) : Bool :=
  isAsciiDigit c || ('a' ≤ c && c ≤ 'f')

/-! ## `T_TIMESTAMP_UTC` and `T_OPERATION_ID`

From `src/temboardagent/plugins/maintenance/__init__.py`:

  `T_TIMESTAMP_UTC = b'(^[0-9]{4}-[0-9]{2}-[0-9]{2}T[0-9]{2}:[0-9]{2}:[0-9]{2}Z$)'`
  `T_OPERATION_ID = b'(^[0-9a-f]{8}$)'`

Both patterns are anchored on both sides, so they are embedded as exact
whole-string matchers. -/

/-- Matcher for `T_TIMESTAMP_UTC`: 20 characters, digits in the date/time
positions, with the literal separators `-`, `T`, `:` and trailing `Z`. -/
def matchTimestampUtc (s : String) : Bool :=
  match s.data with
  | [y1, y2, y3, y4, d1, mo1, mo2, d2, da1, da2, t,
     h1, h2, c1, mi1, mi2, c2, s1, s2, z] =>
    isAsciiDigit y1 && isAsciiDigit y2 && isAsciiDigit y3 && isAsciiDigit y4 &&
    d1 == '-' && isAsciiDigit mo1 && isAsciiDigit mo2 && d2 == '-' &&
    isAsciiDigit da1 && isAsciiDigit da2 && t == 'T' &&
    isAsciiDigit h1 && isAsciiDigit h2 && c1 == ':' &&
    isAsciiDigit mi1 && isAsciiDigit mi2 && c2 == ':' &&
    isAsciiDigit s1 && isAsciiDigit s2 && z == 'Z'
  | _ => false

/-- Matcher for `T_OPERATION_ID`: exactly eight lowercase hexadecimal digits. -/
def matchOperationId (s : String) : Bool :=
  match s.data with
  | [a, b, c, d, e, f, g, h] =>
    isLowerHexDigit a && isLowerHexDigit b && isLowerHexDigit c &&
    isLowerHexDigit d && isLowerHexDigit e && isLowerHexDigit f &&
    isLowerHexDigit g && isLowerHexDigit h
  | _ => false

/-! ## `datetime.utcnow().strftime("%Y-%m-%dT%H:%M:%SZ")` -/

/-- A UTC wall-clock instant, the relevant fields of Python's `datetime`. -/
structure UtcTime where
  year : Nat
  month : Nat
  day : Nat
  hour : Nat
  minute : Nat
  second : Nat

/-- The decimal digit character for `n % 10`, as produced by zero-padded
`strftime` fields. -/
def decDigit (n : Nat) : Char :=
  match n % 10 with
  | 0 => '0' | 1 => '1' | 2 => '2' | 3 => '3' | 4 => '4'
  | 5 => '5' | 6 => '6' | 7 => '7' | 8 => '8' | _ => '9'

/-- `strftime("%Y-%m-%dT%H:%M:%SZ")`: `%Y` zero-padded to four digits, the
other fields to two (faithful for the in-range field values `utcnow`
produces). -/
def strftimeUtc (t : UtcTime) : String :=
  ⟨[decDigit (t.year / 1000), decDigit (t.year / 100),
    decDigit (t.year / 10), decDigit t.year, '-',
    decDigit (t.month / 10), decDigit t.month, '-',
    decDigit (t.day / 10), decDigit t.day, 'T',
    decDigit (t.hour / 10), decDigit t.hour, ':',
    decDigit (t.minute / 10), decDigit t.minute, ':',
    decDigit (t.second / 10), decDigit t.second, 'Z']⟩

/-! ## Datetime handling of `post_vacuum`, `post_analyze`, `post_reindex` -/

/-- Lookup in the posted form, Python's `'datetime' in post` / `post.get`. -/
def lookupField (post : List (String × String)) (k : String) : Option String :=
  (post.find? (fun p => p.1 == k)).map (fun p => p.2)

/-- The HTTP error raised on parameter rejection. -/
structure ParamError where
  code : Nat
  message : String
deriving DecidableEq, Repr

/-- Modelled from the spec: `validate_parameters` (in `temboardagent.tools`,
outside the source tree) rejects a request whose field does not match the
given pattern, raising an HTTP 406 error. -/
def validateAgainst (pattern : String → Bool) (v : String) :
    Except ParamError String :=
  if pattern v then .ok v else .error ⟨406, "Invalid parameter."⟩

/-- The `datetime` handling of `post_vacuum`
(`src/temboardagent/plugins/maintenance/__init__.py` lines 89–95): when the
posted form carries `datetime` it is validated against `T_TIMESTAMP_UTC`,
otherwise the schedule time defaults to `utcnow` formatted. -/
def post_vacuum_datetime (post : List (String × String)) (now : UtcTime) :
    Except ParamError String :=
  match lookupField post "datetime" with
  | some v => validateAgainst matchTimestampUtc v
  | none => .ok (strftimeUtc now)

/-- The identical `datetime` handling of `post_analyze` (lines 146–152). -/
def post_analyze_datetime (post : List (String × String)) (now : UtcTime) :
    Except ParamError String :=
  match lookupField post "datetime" with
  | some v => validateAgainst matchTimestampUtc v
  | none => .ok (strftimeUtc now)

/-- The identical `datetime` handling of `post_reindex` (lines 197–203). -/
def post_reindex_datetime (post : List (String × String)) (now : UtcTime) :
    Except ParamError String :=
  match lookupField post "datetime" with
  | some v => validateAgainst matchTimestampUtc v
  | none => .ok (strftimeUtc now)

/-! ## The task-manager state machine

`temboardagent.toolkit.taskmanager` is not part of the source tree; its task
lifecycle is modelled from the specification (§3, §4.3): task records with a
`status` moving along `scheduled → queued → running → {done, failed,
cancelled}`, driven by the dispatch loop, worker events and cancel requests. -/

namespace Taskman

/-- Modelled from the spec: the task `status` field (§3). -/
inductive TaskStatus where
  | scheduled
  | queued
  | running
  | done
  | failed
  | cancelled
deriving DecidableEq, Repr

/-- Modelled from the spec: a Task Store record (§3). -/
structure Task where
  id : String
  function : String
  args : List String
  scheduled_at : Nat
  status : TaskStatus
  result : Option String
  error : Option String
deriving DecidableEq, Repr

/-- Scheduler-side errors (§7). -/
inductive TmError where
  | NotFound
  | InvalidState
deriving DecidableEq, Repr

/-- Find a task record by id in the Task Store. -/
def findTask (s : List Task) (id : String) : Option Task :=
  s.find? (fun t => t.id == id)

/-- Update the record(s) with the given id, leaving ids untouched. -/
def updateTask (s : List Task) (id : String) (f : Task → Task) : List Task :=
  s.map (fun t => if t.id == id then f t else t)

/-- Modelled from the spec: `Cancel(id)` (§4.3) — on a `scheduled` or
`queued` task, transition it to `cancelled`; any other state fails with
`InvalidState`; an unknown id fails with `NotFound`. -/
def cancelTask (s : List Task) (id : String) : Except TmError (List Task) :=
  match findTask s id with
  | none => .error .NotFound
  | some t =>
    if t.status = .scheduled ∨ t.status = .queued then
      .ok (updateTask s id (fun t => { t with status := .cancelled }))
    else
      .error .InvalidState

/-- Modelled from the spec: worker events on the Event Queue (§4.4). -/
inductive Event where
  | started (id : String)
  | completed (id : String) (r : String)
  | failed (id : String) (e : String)
deriving DecidableEq, Repr

/-- Modelled from the spec: effect of a `Started` event on one task record —
a `queued` task moves to `running`; the event is discarded against a task in
any other state (in particular an already-`cancelled` one). -/
def applyStarted (t : Task) : Task :=
  if t.status = .queued then { t with status := .running } else t

/-- Modelled from the spec: effect of a `Completed` event on one task record
— a `running` task moves to `done` with the result recorded; the event is
discarded otherwise. -/
def applyCompleted (r : String) (t : Task) : Task :=
  if t.status = .running then { t with status := .done, result := some r }
  else t

/-- Modelled from the spec: effect of a `Failed` event on one task record —
a `running` task moves to `failed` with the error recorded; the event is
discarded otherwise. -/
def applyFailed (e : String) (t : Task) : Task :=
  if t.status = .running then { t with status := .failed, error := some e }
  else t

/-- Modelled from the spec: event consumption (§4.3); events naming unknown
ids leave the store unchanged. -/
def handleEvent (s : List Task) : Event → List Task
  | .started id => updateTask s id applyStarted
  | .completed id r => updateTask s id (applyCompleted r)
  | .failed id e => updateTask s id (applyFailed e)

/-- Modelled from the spec: the dispatch loop's treatment of one record
(§4.3) — a `scheduled` task whose `scheduled_at` has passed moves to
`queued` when its function is registered, and directly to `failed` with
`UnknownFunction` otherwise. -/
def dispatchTask (reg : List (String × Nat)) (now : Nat) (t : Task) : Task :=
  if t.status = .scheduled ∧ t.scheduled_at ≤ now then
    if (reg.find? (fun p => p.1 == t.function)).isSome then
      { t with status := .queued }
    else
      { t with status := .failed, error := some "UnknownFunction" }
  else t

/-- Modelled from the spec: one dispatch-loop tick over the Task Store. -/
def dispatchDue (reg : List (String × Nat)) (now : Nat) (s : List Task) :
    List Task :=
  s.map (dispatchTask reg now)

/-- Modelled from the spec: the operations that mutate task status —
dispatch ticks, cancel requests and worker events (§3 invariants). -/
inductive SchedOp where
  | tick (now : Nat)
  | cancel (id : String)
  | event (e : Event)
deriving DecidableEq, Repr

/-- Apply one scheduler operation to the Task Store; a failing cancel
leaves the store untouched. -/
def applyOp (reg : List (String × Nat)) (s : List Task) : SchedOp → List Task
  | .tick now => dispatchDue reg now s
  | .cancel id =>
    match cancelTask s id with
    | .ok s' => s'
    | .error _ => s
  | .event e => handleEvent s e

/-- Position of a status along the lifecycle chain
`scheduled → queued → running → {done, failed, cancelled}`. -/
def statusRank : TaskStatus → Nat
  | .scheduled => 0
  | .queued => 1
  | .running => 2
  | .done => 3
  | .failed => 3
  | .cancelled => 3

/-- One scheduler operation moves a status forward: the rank never drops,
`running` only moves to `done`/`failed` (or stays), and terminal states are
absorbing. -/
abbrev statusStep (a b : TaskStatus) : Prop :=
  statusRank a ≤ statusRank b ∧
  (a = .running → b = .running ∨ b = .done ∨ b = .failed) ∧
  (statusRank a = 3 → b = a)

/-! ### Task id generation (spec §3) -/

/-- Modelled from the spec: a lowercase hexadecimal digit character. -/
def hexDigit (n : Nat) : Char :=
  match n % 16 with
  | 0 => '0' | 1 => '1' | 2 => '2' | 3 => '3' | 4 => '4' | 5 => '5'
  | 6 => '6' | 7 => '7' | 8 => '8' | 9 => '9' | 10 => 'a' | 11 => 'b'
  | 12 => 'c' | 13 => 'd' | 14 => 'e' | _ => 'f'

/-- Modelled from the spec: the Scheduler generates task ids as fixed-width
8-character lowercase hexadecimal strings (§3). -/
def genId (seed : Nat) : String :=
  ⟨[hexDigit (seed / 16 ^ 7), hexDigit (seed / 16 ^ 6),
    hexDigit (seed / 16 ^ 5), hexDigit (seed / 16 ^ 4),
    hexDigit (seed / 16 ^ 3), hexDigit (seed / 16 ^ 2),
    hexDigit (seed / 16), hexDigit seed]⟩

/-- Modelled from the spec: id generation at submission time — a collision
with an id already in the Task Store is detected and the id regenerated
(§3); `fuel` bounds the number of attempts. -/
def newTaskId (existing : List String) : Nat → Nat → Option String
  | 0, _ => none
  | fuel + 1, seed =>
    let id := genId seed
    if id ∈ existing then newTaskId existing fuel (seed + 1) else some id

/-! ### The Worker Pool (spec §4.4) -/

/-- Modelled from the spec: the pool-relevant execution events (§4.4) — a
worker slot of function `f` picks a task up / finishes it. -/
inductive PoolEvent where
  | start (f : String) (tid : String)
  | finish (f : String) (tid : String)
deriving DecidableEq, Repr

/-- Modelled from the spec: the executions currently in `running` state,
tagged by worker-function name (§4.4). -/
structure PoolState where
  running : List (String × String)
deriving DecidableEq, Repr

/-- The pool state at startup: nothing running. -/
def poolInit : PoolState := ⟨[]⟩

/-- Task Registry lookup of a function's `pool_size` (§4.1). -/
def lookupPoolSize (reg : List (String × Nat)) (f : String) : Option Nat :=
  (reg.find? (fun p => p.1 == f)).map (fun p => p.2)

/-- Number of concurrent executions of function `f`. -/
def runningCount (ps : PoolState) (f : String) : Nat :=
  (ps.running.filter (fun p => p.1 == f)).length

/-- Modelled from the spec: pool semantics (§4.4) — one logical pool per
registered function, sized by its `pool_size`: a task of function `f`
enters `running` only while fewer than `pool_size` executions of `f` are
running; an unregistered function is never executed; finishing removes one
execution. -/
def applyPoolEvent (reg : List (String × Nat)) (ps : PoolState) :
    PoolEvent → PoolState
  | .start f tid =>
    match lookupPoolSize reg f with
    | some n => if runningCount ps f < n then ⟨(f, tid) :: ps.running⟩ else ps
    | none => ps
  | .finish f tid => ⟨ps.running.eraseP (fun p => p.1 == f && p.2 == tid)⟩

/-- The pool state reached from startup by a sequence of events. -/
def poolRun (reg : List (String × Nat)) (events : List PoolEvent) : PoolState :=
  events.foldl (applyPoolEvent reg) poolInit

end Taskman

/-! ## The maintenance plugin's worker registrations and handlers -/

/-- The worker registrations made by the maintenance plugin:
`@taskmanager.worker(pool_size=10)` on `vacuum_worker`, `analyze_worker`
and `reindex_worker` (src/temboardagent/plugins/maintenance/__init__.py
lines 130, 181, 238). -/
def maintenanceRegistry : List (String × Nat) :=
  [("vacuum_worker", 10), ("analyze_worker", 10), ("reindex_worker", 10)]

/-- The configuration snapshot handed to workers: the four keys that
`SchedulerService.apply_config` puts into the scheduler context
(src/temboardui/__main__.py lines 236-244). -/
structure WorkerConfig where
  plugins : String
  temboard : String
  repository : String
  logging : String
deriving DecidableEq, Repr

/-- Modelled from the spec: the serialized configuration blob handed to a
worker — `pickle.dumps` of the configuration snapshot (§6, design note on
pickled config). -/
def pickleConfig (c : WorkerConfig) : List String :=
  [c.plugins, c.temboard, c.repository, c.logging]

/-- Modelled from the spec: `pickle.loads` — recover the configuration
snapshot from the blob; fails on a malformed blob. -/
def unpickleConfig (b : List String) : Option WorkerConfig :=
  match b with
  | [p, t, r, l] => some ⟨p, t, r, l⟩
  | _ => none

/-- `vacuum_worker` (maintenance/__init__.py lines 130-136): unpickles the
config argument, then runs the vacuum operation on the task-specific
arguments. `functions.get_postgres(...).connect()` plus `functions.vacuum`
live outside the source tree and are abstracted as the `vacuum` argument.
Fails (`none`) when deserialization fails. -/
def vacuum_worker
    (vacuum : WorkerConfig → String → String → String → String → String)
    (config : List String) (dbname schema table mode : String) :
    Option String :=
  (unpickleConfig config).map (fun c => vacuum c dbname schema table mode)

/-- `analyze_worker` (maintenance/__init__.py lines 181-187), with the
analyze operation abstracted as the `analyze` argument. -/
def analyze_worker (analyze : WorkerConfig → String → String → String → String)
    (config : List String) (dbname schema table : String) : Option String :=
  (unpickleConfig config).map (fun c => analyze c dbname schema table)

/-- `reindex_worker` (maintenance/__init__.py lines 238-243), with the
reindex operation abstracted as the `reindex` argument. -/
def reindex_worker (reindex : WorkerConfig → String → String → String → String)
    (config : List String) (dbname schema index : String) : Option String :=
  (unpickleConfig config).map (fun c => reindex c dbname schema index)

/-! ## Scheduler construction in the UI process -/

/-- `os.path.join` for two components, POSIX semantics: an absolute second
component wins; otherwise a `/` separator is inserted unless the first
component is empty or already ends in `/`. -/
def osPathJoin (a b : String) : String :=
  if b.data.head? = some '/' then b
  else if a.data = [] ∨ a.data.getLast? = some '/' then a ++ b
  else a ++ "/" ++ b

/-- The slice of the UI configuration used by `temboard_bootstrap` and
`SchedulerService.apply_config`: the configured `home` directory and the
`tm_sock_path` key that bootstrap fills in. -/
structure TemboardConfig where
  home : String
  tm_sock_path : Option String
deriving DecidableEq, Repr

/-- `temboard_bootstrap` (src/temboardui/__main__.py lines 137-138): sets
`config.temboard['tm_sock_path']` to `os.path.join(home, '.tm.socket')`,
at startup, before services are constructed. -/
def temboard_bootstrap (c : TemboardConfig) : TemboardConfig :=
  { c with tm_sock_path := some (osPathJoin c.home ".tm.socket") }

/-- The constructor arguments of `taskmanager.Scheduler` as passed by
`SchedulerService.apply_config` (src/temboardui/__main__.py lines 226-232). -/
structure SchedulerParams where
  address : String
  task_path : String
  authkey : Option String
deriving DecidableEq, Repr

/-- `SchedulerService.apply_config` (src/temboardui/__main__.py lines
224-244): constructs the Scheduler from the bootstrapped configuration —
`address` is the `tm_sock_path` computed at bootstrap, `task_path` is
`os.path.join(home, '.tm.task_list')` and `authkey` is `None`. Yields
`none` when bootstrap has not filled `tm_sock_path` in (a `KeyError` in
the source). -/
def SchedulerService_apply_config (c : TemboardConfig) :
    Option SchedulerParams :=
  match c.tm_sock_path with
  | none => none
  | some sock =>
    some { address := sock,
           task_path := osPathJoin c.home ".tm.task_list",
           authkey := none }

/-! ## `MergedConfiguration` (src/temboardagent/configuration.py) -/

namespace Cfg

/-- `OptionSpec`: a known option with its section, option name and default
value; looked up by its flat name (`str(spec)` in the source). -/
structure OptionSpec where
  sect : String
  name : String
  default : String
deriving DecidableEq, Repr

/-- `Value` (configuration.py lines 450-458): an option value and its
origin. -/
structure Value where
  name : String
  value : String
  origin : String
deriving DecidableEq, Repr

/-- The mutable state of `MergedConfiguration`: a dict of sections, each a
dict of option values, plus the `plugins` and `loaded` attributes. -/
structure MergedConfiguration where
  sections : String → Option (String → Option String)
  plugins : Option String
  loaded : Bool

/-- Read one option slot: `self[sect][name]`. -/
def getValue (c : MergedConfiguration) (sect name : String) : Option String :=
  match c.sections sect with
  | none => none
  | some m => m name

/-- Write one option slot unconditionally, creating the section if needed
(Python's `section[name] = v`). -/
def setValue (c : MergedConfiguration) (sect name v : String) :
    MergedConfiguration :=
  { c with sections := fun s =>
      if s = sect then
        some (fun n =>
          if n = name then some v
          else
            match c.sections sect with
            | none => none
            | some m => m n)
      else c.sections s }

/-- `self.setdefault(sect, {})`: create an empty section dict if absent. -/
def ensureSection (c : MergedConfiguration) (sect : String) :
    MergedConfiguration :=
  { c with sections := fun s =>
      if s = sect then
        some (fun n =>
          match c.sections sect with
          | none => none
          | some m => m n)
      else c.sections s }

/-- The body of the `add_values` loop for one value: create the section if
needed, then skip the value when the slot is already defined
(configuration.py lines 497-502). -/
def mergeMissing (c : MergedConfiguration) (sect name v : String) :
    MergedConfiguration :=
  match getValue c sect name with
  | some _ => ensureSection c sect
  | none => setValue c sect name v

/-- Spec lookup: `self.specs[value.name]`; `None` models the `KeyError`. -/
def lookupSpec (specs : List (String × OptionSpec)) (n : String) :
    Option OptionSpec :=
  (specs.find? (fun p => p.1 == n)).map (fun p => p.2)

/-- `MergedConfiguration.add_values` (configuration.py lines 494-502):
merge **missing** values only, never overriding an already-defined slot; a
value naming an unknown spec raises `KeyError`, modelled as `.error`. -/
def add_values (specs : List (String × OptionSpec)) :
    MergedConfiguration → List Value → Except String MergedConfiguration
  | c, [] => .ok c
  | c, v :: vs =>
    match lookupSpec specs v.name with
    | none => .error v.name
    | some spec => add_values specs (mergeMissing c spec.sect spec.name v.value) vs

/-- `iter_defaults` (configuration.py lines 467-470): one `Value` per spec,
keyed by the spec's flat name, carrying the spec's default. -/
def iter_defaults (specs : List (String × OptionSpec)) : List Value :=
  specs.map (fun p => ⟨p.1, p.2.default, "defaults"⟩)

/-- The file configuration handed to `load_file`: the values of the
`temboard`, `logging` and `postgresql` sections. -/
structure FileConfig where
  temboard : List (String × String)
  logging : List (String × String)
  postgresql : List (String × String)
deriving DecidableEq, Repr

/-- `MergedConfiguration.load_file` (configuration.py lines 522-540): for
each of the three file sections, values from the file **override** previous
values (including args). The `configfile`/`confdir` compat attributes touch
no option slot and are omitted. -/
def load_file (c : MergedConfiguration) (fc : FileConfig) :
    MergedConfiguration :=
  let c := (fc.temboard.foldl (fun c q => setValue c "temboard" q.1 q.2)
    (ensureSection c "temboard"))
  let c := (fc.logging.foldl (fun c q => setValue c "logging" q.1 q.2)
    (ensureSection c "logging"))
  let c := (fc.postgresql.foldl (fun c q => setValue c "postgresql" q.1 q.2)
    (ensureSection c "postgresql"))
  c

/-- `MergedConfiguration.load` up to and including the
`load_plugins_configurations` assignment (configuration.py lines 504-518):
merge args values, default the `temboard.configfile` slot, load the file
(overriding), then set the `plugins` attribute. -/
def load_phase1 (specs : List (String × OptionSpec)) (args : List Value)
    (fc : FileConfig) (pluginsConf : String) (c : MergedConfiguration) :
    Except String MergedConfiguration :=
  match add_values specs c args with
  | .error e => .error e
  | .ok c =>
    let c := ensureSection c "temboard"
    let c :=
      match lookupSpec specs "temboard_configfile" with
      | some spec => mergeMissing c "temboard" "configfile" spec.default
      | none => c
    let c := load_file c fc
    .ok { c with plugins := some pluginsConf }

/-- `MergedConfiguration.load` (configuration.py lines 504-520): phase 1,
then the defaults are merged **last** via `add_values(iter_defaults(...))`,
and `loaded` is set. -/
def load (specs : List (String × OptionSpec)) (args : List Value)
    (fc : FileConfig) (pluginsConf : String) (c : MergedConfiguration) :
    Except String MergedConfiguration :=
  match load_phase1 specs args fc pluginsConf c with
  | .error e => .error e
  | .ok c₁ =>
    match add_values specs c₁ (iter_defaults specs) with
    | .error e => .error e
    | .ok c₂ => .ok { c₂ with loaded := true }

end Cfg

/-! ## `post_pg_ident` (src/temboardagent/plugins/pgconf/functions.py) -/

/-- An error escaping `post_pg_ident`: either an explicitly raised
`HTTPError`, or an uncaught I/O failure. -/
inductive PgconfError where
  | http (code : Nat) (message : String)
  | ioerror
deriving DecidableEq, Repr

/-- Overwrite one file of the filesystem. -/
def fsWrite (fs : String → Option String) (p c : String) :
    String → Option String :=
  fun q => if q = p then some c else fs q

/-- `post_pg_ident` (pgconf/functions.py lines 555-582) over a filesystem
model. `identQuery` is the result of the `pg_settings` query for
`ident_file` (`none` models the caught `error`, re-raised as HTTP 500);
`writable` tells which paths `open(..., 'w')` accepts. The function returns
the final filesystem and either the `{'update': True}` payload (`true`) or
the escaping error. -/
def post_pg_ident (identQuery : Option String)
    (post : List (String × String)) (writable : String → Bool)
    (fs : String → Option String) :
    (String → Option String) × Except PgconfError Bool :=
  match lookupField post "content" with
  | none => (fs, .error (.http 406 "Parameter 'content' not sent."))
  | some content =>
    match identQuery with
    | none => (fs, .error (.http 500 "Internal error."))
    | some pg_ident_file =>
      match fs pg_ident_file with
      | none => (fs, .error .ioerror)
      | some pg_ident_data =>
        if writable (pg_ident_file ++ ".previous") then
          let fs₁ := fsWrite fs (pg_ident_file ++ ".previous") pg_ident_data
          if writable pg_ident_file then
            (fsWrite fs₁ pg_ident_file content, .ok true)
          else (fs₁, .error .ioerror)
        else (fs, .error (.http 500 "Internal error."))

/-! # Theorems -/

/-! ### Basic facts about the formatter and the matchers -/

theorem isAsciiDigit_decDigit (n : Nat) : isAsciiDigit (decDigit n) = true := by
  have h : n % 10 < 10 := Nat.mod_lt _ (by omega)
  unfold decDigit
  set k := n % 10 with hk
  interval_cases k <;> rfl

/-- The default timestamp produced from `utcnow` always matches
`T_TIMESTAMP_UTC`. -/
theorem matchTimestampUtc_strftimeUtc (t : UtcTime) :
    matchTimestampUtc (strftimeUtc t) = true := by
  simp [strftimeUtc, matchTimestampUtc, isAsciiDigit_decDigit]


namespace Taskman

theorem statusStep_refl (a : TaskStatus) : statusStep a a := by
  refine ⟨le_refl _, fun h => Or.inl h, fun _ => rfl⟩

theorem statusStep_trans {a b c : TaskStatus} :
    statusStep a b → statusStep b c → statusStep a c := by
  cases a <;> cases b <;> cases c <;> decide

theorem findTask_map (g : Task → Task) (hg : ∀ t, (g t).id = t.id)
    (s : List Task) (id : String) :
    findTask (s.map g) id = (findTask s id).map g := by
  induction s with
  | nil => rfl
  | cons a l ih =>
    simp only [findTask, List.map_cons, List.find?] at *
    rw [hg a]
    cases h : (a.id == id) <;> simp [h, ih]

theorem findTask_updateTask (s : List Task) (id₀ : String) (f : Task → Task)
    (hf : ∀ t, (f t).id = t.id) (id : String) :
    findTask (updateTask s id₀ f) id =
      (findTask s id).map (fun t => if t.id == id₀ then f t else t) := by
  apply findTask_map
  intro t
  by_cases h : (t.id == id₀) = true <;> simp [h, hf]

theorem id_eq_of_findTask (s : List Task) (id : String) (t : Task)
    (h : findTask s id = some t) : t.id = id := by
  have := List.find?_some h
  simpa using this

theorem applyStarted_id (t : Task) : (applyStarted t).id = t.id := by
  rw [applyStarted]; split_ifs <;> rfl

theorem applyCompleted_id (r : String) (t : Task) :
    (applyCompleted r t).id = t.id := by
  rw [applyCompleted]; split_ifs <;> rfl

theorem applyFailed_id (e : String) (t : Task) :
    (applyFailed e t).id = t.id := by
  rw [applyFailed]; split_ifs <;> rfl

theorem dispatchTask_id (reg : List (String × Nat)) (now : Nat) (t : Task) :
    (dispatchTask reg now t).id = t.id := by
  rw [dispatchTask]; split_ifs <;> rfl

theorem statusStep_applyStarted (t : Task) :
    statusStep t.status (applyStarted t).status := by
  rw [applyStarted]; split_ifs with h1
  · rw [h1]
    exact (by decide : statusStep TaskStatus.queued TaskStatus.running)
  · exact statusStep_refl _

theorem statusStep_applyCompleted (r : String) (t : Task) :
    statusStep t.status (applyCompleted r t).status := by
  rw [applyCompleted]; split_ifs with h1
  · rw [h1]
    exact (by decide : statusStep TaskStatus.running TaskStatus.done)
  · exact statusStep_refl _

theorem statusStep_applyFailed (e : String) (t : Task) :
    statusStep t.status (applyFailed e t).status := by
  rw [applyFailed]; split_ifs with h1
  · rw [h1]
    exact (by decide : statusStep TaskStatus.running TaskStatus.failed)
  · exact statusStep_refl _

theorem statusStep_dispatchTask (reg : List (String × Nat)) (now : Nat)
    (t : Task) : statusStep t.status (dispatchTask reg now t).status := by
  rw [dispatchTask]; split_ifs with h1 h2
  · rw [h1.1]
    exact (by decide : statusStep TaskStatus.scheduled TaskStatus.queued)
  · rw [h1.1]
    exact (by decide : statusStep TaskStatus.scheduled TaskStatus.failed)
  · exact statusStep_refl _

theorem findTask_updateTask_statusStep (s : List Task) (id₀ : String)
    (f : Task → Task) (hfid : ∀ u, (f u).id = u.id)
    (hf : ∀ u, statusStep u.status (f u).status) (id : String) (t : Task)
    (h : findTask s id = some t) :
    ∃ t', findTask (updateTask s id₀ f) id = some t' ∧
      statusStep t.status t'.status := by
  rw [findTask_updateTask s id₀ f hfid, h]
  refine ⟨_, rfl, ?_⟩
  beta_reduce
  by_cases hid : (t.id == id₀) = true
  · rw [if_pos hid]; exact hf t
  · rw [if_neg hid]; exact statusStep_refl _

theorem findTask_cancelTask_ok (s : List Task) (id₀ : String)
    (s' : List Task) (hc : cancelTask s id₀ = .ok s') (id : String)
    (t : Task) (h : findTask s id = some t) :
    ∃ t', findTask s' id = some t' ∧ statusStep t.status t'.status := by
  cases h₀ : findTask s id₀ with
  | none => simp [cancelTask, h₀] at hc
  | some t₀ =>
    rw [cancelTask, h₀] at hc
    simp only [] at hc
    by_cases hst : t₀.status = TaskStatus.scheduled ∨ t₀.status = TaskStatus.queued
    · rw [if_pos hst] at hc
      simp only [Except.ok.injEq] at hc
      subst hc
      rw [findTask_updateTask s id₀
        (fun u => { u with status := TaskStatus.cancelled }) (fun _ => rfl), h]
      refine ⟨_, rfl, ?_⟩
      beta_reduce
      by_cases hid : (t.id == id₀) = true
      · rw [if_pos hid]
        have hidq : t.id = id := id_eq_of_findTask s id t h
        have hideq : id = id₀ := by simpa [hidq] using hid
        subst hideq
        have ht : t = t₀ := by rw [h] at h₀; injection h₀
        rw [← ht] at hst
        rcases hst with hst | hst <;> rw [hst]
        · exact (by decide : statusStep TaskStatus.scheduled TaskStatus.cancelled)
        · exact (by decide : statusStep TaskStatus.queued TaskStatus.cancelled)
      · rw [if_neg hid]; exact statusStep_refl _
    · rw [if_neg hst] at hc
      exact absurd hc (by simp)

/-- Single-step progress: after any scheduler operation a task present in
the store is still present, with a status one `statusStep` forward. -/
theorem findTask_applyOp (reg : List (String × Nat)) (op : SchedOp)
    (s : List Task) (id : String) (t : Task) (h : findTask s id = some t) :
    ∃ t', findTask (applyOp reg s op) id = some t' ∧
      statusStep t.status t'.status := by
  cases op with
  | tick now =>
    rw [applyOp, dispatchDue, findTask_map _ (dispatchTask_id reg now), h]
    exact ⟨_, rfl, statusStep_dispatchTask reg now t⟩
  | cancel id₀ =>
    rw [applyOp]
    cases hc : cancelTask s id₀ with
    | error e => exact ⟨t, h, statusStep_refl _⟩
    | ok s' => exact findTask_cancelTask_ok s id₀ s' hc id t h
  | event e =>
    cases e with
    | started eid =>
      rw [applyOp, handleEvent]
      exact findTask_updateTask_statusStep s eid applyStarted applyStarted_id
        statusStep_applyStarted id t h
    | completed eid r =>
      rw [applyOp, handleEvent]
      exact findTask_updateTask_statusStep s eid (applyCompleted r)
        (applyCompleted_id r) (statusStep_applyCompleted r) id t h
    | failed eid err =>
      rw [applyOp, handleEvent]
      exact findTask_updateTask_statusStep s eid (applyFailed err)
        (applyFailed_id err) (statusStep_applyFailed err) id t h

/-- Multi-step progress along any sequence of scheduler operations. -/
theorem findTask_foldl (reg : List (String × Nat)) (ops : List SchedOp) :
    ∀ (s : List Task) (id : String) (t : Task), findTask s id = some t →
      ∃ t', findTask (ops.foldl (applyOp reg) s) id = some t' ∧
        statusStep t.status t'.status := by
  induction ops with
  | nil => exact fun s id t h => ⟨t, h, statusStep_refl _⟩
  | cons op ops ih =>
    intro s id t h
    obtain ⟨t₁, h₁, hs₁⟩ := findTask_applyOp reg op s id t h
    obtain ⟨t₂, h₂, hs₂⟩ := ih (applyOp reg s op) id t₁ h₁
    exact ⟨t₂, h₂, statusStep_trans hs₁ hs₂⟩

end Taskman

/-! ## C6 — scheduled time is a UTC timestamp -/

/-- C6: for every vacuum, analyze or reindex submission, a posted
`datetime` field must match `T_TIMESTAMP_UTC` or parameter validation
rejects the request with HTTP 406; an absent field defaults the schedule
time to the formatted current UTC time; and every accepted schedule time
matches the UTC timestamp pattern. -/
theorem scheduled_time_is_utc_timestamp (post : List (String × String))
    (now : UtcTime) :
    (lookupField post "datetime" = none →
      post_vacuum_datetime post now = .ok (strftimeUtc now) ∧
      post_analyze_datetime post now = .ok (strftimeUtc now) ∧
      post_reindex_datetime post now = .ok (strftimeUtc now)) ∧
    (∀ v, lookupField post "datetime" = some v →
      (matchTimestampUtc v = false →
        post_vacuum_datetime post now = .error ⟨406, "Invalid parameter."⟩ ∧
        post_analyze_datetime post now = .error ⟨406, "Invalid parameter."⟩ ∧
        post_reindex_datetime post now = .error ⟨406, "Invalid parameter."⟩) ∧
      (matchTimestampUtc v = true →
        post_vacuum_datetime post now = .ok v ∧
        post_analyze_datetime post now = .ok v ∧
        post_reindex_datetime post now = .ok v)) ∧
    (∀ r, post_vacuum_datetime post now = .ok r →
      matchTimestampUtc r = true) := by
  refine ⟨?_, ?_, ?_⟩
  · intro h
    simp [post_vacuum_datetime, post_analyze_datetime, post_reindex_datetime,
      h]
  · intro v hv
    constructor
    · intro hm
      simp [post_vacuum_datetime, post_analyze_datetime,
        post_reindex_datetime, hv, validateAgainst, hm]
    · intro hm
      simp [post_vacuum_datetime, post_analyze_datetime,
        post_reindex_datetime, hv, validateAgainst, hm]
  · intro r hr
    cases h : lookupField post "datetime" with
    | none =>
      simp only [post_vacuum_datetime, h] at hr
      injection hr with hr
      rw [← hr]
      exact matchTimestampUtc_strftimeUtc now
    | some v =>
      simp only [post_vacuum_datetime, h, validateAgainst] at hr
      by_cases hm : matchTimestampUtc v = true
      · rw [if_pos hm] at hr
        injection hr with hr
        rw [← hr]
        exact hm
      · rw [if_neg hm] at hr
        exact absurd hr (by simp)

/-- Witness for C6 at concrete inputs: a valid posted timestamp is accepted
verbatim and an invalid one rejected. -/
theorem scheduled_time_is_utc_timestamp_witness :
    post_vacuum_datetime [("datetime", "2026-10-12T09:30:00Z")]
        ⟨2026, 10, 12, 9, 30, 0⟩ = .ok "2026-10-12T09:30:00Z" ∧
    post_vacuum_datetime [("datetime", "yesterday")]
        ⟨2026, 10, 12, 9, 30, 0⟩ = .error ⟨406, "Invalid parameter."⟩ ∧
    post_vacuum_datetime [] ⟨2026, 10, 12, 9, 30, 0⟩ =
      .ok "2026-10-12T09:30:00Z" :=
  ⟨(((scheduled_time_is_utc_timestamp
        [("datetime", "2026-10-12T09:30:00Z")] ⟨2026, 10, 12, 9, 30, 0⟩).2.1
        "2026-10-12T09:30:00Z" rfl).2 (by decide)).1,
   (((scheduled_time_is_utc_timestamp
        [("datetime", "yesterday")] ⟨2026, 10, 12, 9, 30, 0⟩).2.1
        "yesterday" rfl).1 (by decide)).1,
   ((scheduled_time_is_utc_timestamp [] ⟨2026, 10, 12, 9, 30, 0⟩).1 rfl).1⟩

/-! ## C5 — worker handlers take config blob first, then task arguments -/

/-- C5: each registered worker handler receives the configuration blob as
its first argument followed by the task-specific arguments, deserializes
the blob, and runs its operation on the remaining arguments; a blob that
does not deserialize fails the handler. -/
theorem worker_handlers_unpickle_config :
    (∀ (vacuum : WorkerConfig → String → String → String → String → String)
       (c : WorkerConfig) (dbname schema table mode : String),
       vacuum_worker vacuum (pickleConfig c) dbname schema table mode =
         some (vacuum c dbname schema table mode)) ∧
    (∀ (analyze : WorkerConfig → String → String → String → String)
       (c : WorkerConfig) (dbname schema table : String),
       analyze_worker analyze (pickleConfig c) dbname schema table =
         some (analyze c dbname schema table)) ∧
    (∀ (reindex : WorkerConfig → String → String → String → String)
       (c : WorkerConfig) (dbname schema index : String),
       reindex_worker reindex (pickleConfig c) dbname schema index =
         some (reindex c dbname schema index)) ∧
    (∀ (vacuum : WorkerConfig → String → String → String → String → String)
       (b : List String) (dbname schema table mode : String),
       unpickleConfig b = none →
       vacuum_worker vacuum b dbname schema table mode = none) := by
  refine ⟨fun vacuum c d s t m => rfl, fun analyze c d s t => rfl,
    fun reindex c d s i => rfl, fun vacuum b d s t m hb => ?_⟩
  rw [vacuum_worker, hb]
  rfl

/-- Witness for C5 at a concrete config and operation. -/
theorem worker_handlers_unpickle_config_witness :
    vacuum_worker (fun _ _ _ _ _ => "ok")
        (pickleConfig ⟨"p", "t", "r", "l"⟩) "db" "public" "tbl" "full" =
      some "ok" ∧
    vacuum_worker (fun _ _ _ _ _ => "ok") [] "db" "public" "tbl" "full" =
      none :=
  ⟨worker_handlers_unpickle_config.1 _ ⟨"p", "t", "r", "l"⟩
      "db" "public" "tbl" "full",
   worker_handlers_unpickle_config.2.2.2 _ [] "db" "public" "tbl" "full" rfl⟩

/-! ## C7 — socket and task-list paths under the configured home -/

/-- C7: at startup `temboard_bootstrap` derives the control-socket path
`<home>/.tm.socket`, and `SchedulerService.apply_config` constructs the
Scheduler with that address and with the persisted task list at
`<home>/.tm.task_list`, both under the configured home. -/
theorem scheduler_paths_under_home (c : TemboardConfig)
    (h1 : c.home.data.getLast? ≠ some '/') (h2 : c.home.data ≠ []) :
    SchedulerService_apply_config (temboard_bootstrap c) =
      some { address := c.home ++ "/.tm.socket",
             task_path := c.home ++ "/.tm.task_list",
             authkey := none } := by
  have hcond : ¬(c.home.data = [] ∨ c.home.data.getLast? = some '/') := by
    rintro (h | h)
    · exact h2 h
    · exact h1 h
  have hj : ∀ b : String, b.data.head? ≠ some '/' →
      osPathJoin c.home b = c.home ++ ("/" ++ b) := by
    intro b hb
    rw [osPathJoin, if_neg hb, if_neg hcond, String.append_assoc]
  simp only [temboard_bootstrap, SchedulerService_apply_config]
  rw [hj ".tm.socket" (by decide), hj ".tm.task_list" (by decide)]
  rfl

/-- Witness for C7 at a concrete home directory. -/
theorem scheduler_paths_under_home_witness :
    SchedulerService_apply_config
        (temboard_bootstrap ⟨"/var/lib/temboard", none⟩) =
      some { address := "/var/lib/temboard/.tm.socket",
             task_path := "/var/lib/temboard/.tm.task_list",
             authkey := none } :=
  scheduler_paths_under_home ⟨"/var/lib/temboard", none⟩ (by decide)
    (by decide)

/-! ## C8 — the Scheduler's control-channel authentication key -/

/-- C8 counterexample: at a concrete configuration, the UI constructs the
Scheduler with `authkey=None` — there is no shared authentication token. -/
theorem scheduler_authkey_none_counterexample :
    (SchedulerService_apply_config
        (temboard_bootstrap ⟨"/var/lib/temboard", none⟩)).map
      SchedulerParams.authkey = some none := rfl

/-- C8 amended: `SchedulerService.apply_config` always constructs the
Scheduler with a null `authkey`; the control socket carries no shared
authentication token and relies on filesystem permissions. -/
theorem scheduler_authkey_is_none (c : TemboardConfig) :
    (SchedulerService_apply_config (temboard_bootstrap c)).map
      SchedulerParams.authkey = some none := rfl

/-! ## C1 — cancel semantics -/

/-- C1: `Cancel(id)` on a `scheduled` or `queued` task succeeds and
transitions exactly that task to `cancelled`; on a task in any other state
it fails with `InvalidState` (leaving the store untouched); and any worker
event arriving for an already-`cancelled` task is discarded — the task
record stays exactly as it was. -/
theorem cancel_semantics (s : List Taskman.Task) (id : String)
    (t : Taskman.Task) (h : Taskman.findTask s id = some t) :
    ((t.status = .scheduled ∨ t.status = .queued) →
      Taskman.cancelTask s id =
        .ok (Taskman.updateTask s id
          (fun u => { u with status := .cancelled })) ∧
      Taskman.findTask
        (Taskman.updateTask s id (fun u => { u with status := .cancelled }))
        id = some { t with status := .cancelled }) ∧
    (¬(t.status = .scheduled ∨ t.status = .queued) →
      Taskman.cancelTask s id = .error .InvalidState) ∧
    (t.status = .cancelled → ∀ e : Taskman.Event,
      Taskman.findTask (Taskman.handleEvent s e) id = some t) := by
  have hid : (t.id == id) = true := by
    simp [Taskman.id_eq_of_findTask s id t h]
  refine ⟨?_, ?_, ?_⟩
  · intro hst
    constructor
    · rw [Taskman.cancelTask, h]
      simp only [if_pos hst]
    · rw [Taskman.findTask_updateTask s id
        (fun u => { u with status := Taskman.TaskStatus.cancelled })
        (fun _ => rfl), h]
      simp only [Option.map_some']
      rw [if_pos hid]
  · intro hst
    rw [Taskman.cancelTask, h]
    simp only [if_neg hst]
  · intro hc e
    cases e with
    | started eid =>
      rw [Taskman.handleEvent,
        Taskman.findTask_updateTask s eid _ Taskman.applyStarted_id, h]
      simp only [Option.map_some']
      by_cases he : (t.id == eid) = true
      · rw [if_pos he, Taskman.applyStarted, if_neg]
        rw [hc]
        exact fun hq => Taskman.TaskStatus.noConfusion hq
      · rw [if_neg he]
    | completed eid r =>
      rw [Taskman.handleEvent,
        Taskman.findTask_updateTask s eid _ (Taskman.applyCompleted_id r), h]
      simp only [Option.map_some']
      by_cases he : (t.id == eid) = true
      · rw [if_pos he, Taskman.applyCompleted, if_neg]
        rw [hc]
        exact fun hq => Taskman.TaskStatus.noConfusion hq
      · rw [if_neg he]
    | failed eid err =>
      rw [Taskman.handleEvent,
        Taskman.findTask_updateTask s eid _ (Taskman.applyFailed_id err), h]
      simp only [Option.map_some']
      by_cases he : (t.id == eid) = true
      · rw [if_pos he, Taskman.applyFailed, if_neg]
        rw [hc]
        exact fun hq => Taskman.TaskStatus.noConfusion hq
      · rw [if_neg he]

/-- Witness for C1: cancelling a concrete scheduled task succeeds, updating
its record to `cancelled`. -/
theorem cancel_semantics_witness :
    Taskman.cancelTask
        [⟨"ab12cd34", "vacuum_worker", [], 0, .scheduled, none, none⟩]
        "ab12cd34" =
      .ok (Taskman.updateTask
        [⟨"ab12cd34", "vacuum_worker", [], 0, .scheduled, none, none⟩]
        "ab12cd34" (fun u => { u with status := .cancelled })) ∧
    Taskman.findTask
        (Taskman.updateTask
          [⟨"ab12cd34", "vacuum_worker", [], 0, .scheduled, none, none⟩]
          "ab12cd34" (fun u => { u with status := .cancelled }))
        "ab12cd34" =
      some ⟨"ab12cd34", "vacuum_worker", [], 0, .cancelled, none, none⟩ :=
  (cancel_semantics
    [⟨"ab12cd34", "vacuum_worker", [], 0, .scheduled, none, none⟩]
    "ab12cd34" ⟨"ab12cd34", "vacuum_worker", [], 0, .scheduled, none, none⟩
    rfl).1 (Or.inl rfl)

/-! ## C2 — status moves only forward -/

/-- C2: along any sequence of scheduler operations (dispatch ticks, cancel
requests, worker events), a task's status never returns to an earlier state
— its position along `scheduled → queued → running → {done, failed,
cancelled}` is monotone — and a task observed `running` can only end up
`running`, `done` or `failed`. -/
theorem task_status_monotone (reg : List (String × Nat))
    (ops : List Taskman.SchedOp) (s : List Taskman.Task) (id : String)
    (t t' : Taskman.Task) (h : Taskman.findTask s id = some t)
    (h' : Taskman.findTask (ops.foldl (Taskman.applyOp reg) s) id = some t') :
    Taskman.statusRank t.status ≤ Taskman.statusRank t'.status ∧
    (t.status = .running →
      t'.status = .running ∨ t'.status = .done ∨ t'.status = .failed) := by
  obtain ⟨t₂, h₂, hs⟩ := Taskman.findTask_foldl reg ops s id t h
  rw [h'] at h₂
  injection h₂ with h₂
  rw [h₂]
  exact ⟨hs.1, hs.2.1⟩

/-- Witness for C2: a concrete scheduled task dispatched and started moves
`scheduled → queued → running`, never backwards. -/
theorem task_status_monotone_witness :
    Taskman.statusRank Taskman.TaskStatus.scheduled ≤
      Taskman.statusRank Taskman.TaskStatus.running ∧
    (Taskman.TaskStatus.scheduled = .running →
      Taskman.TaskStatus.running = .running ∨
      Taskman.TaskStatus.running = .done ∨
      Taskman.TaskStatus.running = .failed) :=
  task_status_monotone maintenanceRegistry
    [.tick 0, .event (.started "ab12cd34")]
    [⟨"ab12cd34", "vacuum_worker", [], 0, .scheduled, none, none⟩]
    "ab12cd34"
    ⟨"ab12cd34", "vacuum_worker", [], 0, .scheduled, none, none⟩
    ⟨"ab12cd34", "vacuum_worker", [], 0, .running, none, none⟩
    rfl (by decide)

/-! ## C3 — task ids are 8-char lowercase hex, unique, and the accepted set -/

theorem isLowerHexDigit_hexDigit (n : Nat) :
    isLowerHexDigit (Taskman.hexDigit n) = true := by
  have hlt : n % 16 < 16 := Nat.mod_lt _ (by omega)
  unfold Taskman.hexDigit
  set k := n % 16 with hk
  interval_cases k <;> rfl

theorem matchOperationId_genId (seed : Nat) :
    matchOperationId (Taskman.genId seed) = true := by
  simp [Taskman.genId, matchOperationId, isLowerHexDigit_hexDigit]

theorem newTaskId_fresh (existing : List String) :
    ∀ (fuel seed : Nat) (id : String),
      Taskman.newTaskId existing fuel seed = some id →
      matchOperationId id = true ∧ id ∉ existing := by
  intro fuel
  induction fuel with
  | zero =>
    intro seed id h
    exact absurd h (by simp [Taskman.newTaskId])
  | succ fuel ih =>
    intro seed id h
    simp only [Taskman.newTaskId] at h
    by_cases hmem : Taskman.genId seed ∈ existing
    · rw [if_pos hmem] at h
      exact ih (seed + 1) id h
    · rw [if_neg hmem] at h
      injection h with h
      rw [← h]
      exact ⟨matchOperationId_genId seed, hmem⟩

theorem matchOperationId_iff (s : String) :
    matchOperationId s = true ↔
      s.data.length = 8 ∧ ∀ c ∈ s.data, isLowerHexDigit c = true := by
  obtain ⟨l⟩ := s
  rcases l with _ | ⟨c1, l⟩
  · simp [matchOperationId]
  rcases l with _ | ⟨c2, l⟩
  · simp [matchOperationId]
  rcases l with _ | ⟨c3, l⟩
  · simp [matchOperationId]
  rcases l with _ | ⟨c4, l⟩
  · simp [matchOperationId]
  rcases l with _ | ⟨c5, l⟩
  · simp [matchOperationId]
  rcases l with _ | ⟨c6, l⟩
  · simp [matchOperationId]
  rcases l with _ | ⟨c7, l⟩
  · simp [matchOperationId]
  rcases l with _ | ⟨c8, l⟩
  · simp [matchOperationId]
  rcases l with _ | ⟨c9, l⟩
  · simp [matchOperationId, and_assoc]
  · simp [matchOperationId]

/-- C3: an id produced by the Scheduler's generator always matches
`T_OPERATION_ID` and never collides with an id already in the Task Store;
and `T_OPERATION_ID` — the pattern guarding the cancel endpoints
`delete_vacuum`, `delete_analyze`, `delete_reindex` — accepts exactly the
8-character lowercase-hexadecimal strings. -/
theorem task_ids_wellformed_and_unique :
    (∀ (existing : List String) (fuel seed : Nat) (id : String),
      Taskman.newTaskId existing fuel seed = some id →
      matchOperationId id = true ∧ id ∉ existing) ∧
    (∀ s : String, matchOperationId s = true ↔
      s.data.length = 8 ∧ ∀ c ∈ s.data, isLowerHexDigit c = true) :=
  ⟨newTaskId_fresh, matchOperationId_iff⟩

/-- Witness for C3: with `00000000` taken, generation from seed 0 retries
and yields the fresh well-formed id `00000001`. -/
theorem task_ids_wellformed_and_unique_witness :
    matchOperationId "00000001" = true ∧ "00000001" ∉ ["00000000"] :=
  task_ids_wellformed_and_unique.1 ["00000000"] 2 0 "00000001" (by decide)

/-! ## C4 — pool_size bounds concurrent executions per function -/

namespace Taskman

theorem length_filter_eraseP_le {α : Type} (p q : α → Bool) (l : List α) :
    ((l.eraseP p).filter q).length ≤ (l.filter q).length := by
  induction l with
  | nil => simp
  | cons a l ih =>
    rw [List.eraseP_cons]
    cases hp : p a with
    | true =>
      simp only [cond_true]
      rw [List.filter_cons]
      split_ifs with hq
      · exact Nat.le_succ_of_le (le_refl _)
      · exact le_refl _
    | false =>
      simp only [cond_false]
      rw [List.filter_cons, List.filter_cons]
      split_ifs with hq
      · simpa using ih
      · exact ih

theorem runningCount_applyPoolEvent_le (reg : List (String × Nat))
    (ps : PoolState) (e : PoolEvent) (f : String) (n : Nat)
    (hreg : lookupPoolSize reg f = some n) (h : runningCount ps f ≤ n) :
    runningCount (applyPoolEvent reg ps e) f ≤ n := by
  cases e with
  | start g tid =>
    rw [applyPoolEvent]
    cases hg : lookupPoolSize reg g with
    | none => exact h
    | some m =>
      simp only []
      split_ifs with hlt
      · by_cases hgf : (g == f) = true
        · have hgf' : g = f := by simpa using hgf
          subst hgf'
          rw [hg] at hreg
          injection hreg with hreg
          subst hreg
          rw [runningCount, List.filter_cons, if_pos (by simp)]
          simpa [runningCount] using hlt
        · rw [runningCount, List.filter_cons, if_neg hgf]
          exact h
      · exact h
  | finish g tid =>
    rw [applyPoolEvent]
    calc ((ps.running.eraseP
            (fun p => p.1 == g && p.2 == tid)).filter
            (fun p => p.1 == f)).length
        ≤ (ps.running.filter (fun p => p.1 == f)).length :=
          length_filter_eraseP_le _ _ _
      _ ≤ n := h

/-- The pool bound is an invariant of every reachable pool state. -/
theorem runningCount_poolRun_le (reg : List (String × Nat))
    (events : List PoolEvent) (f : String) (n : Nat)
    (hreg : lookupPoolSize reg f = some n) :
    runningCount (poolRun reg events) f ≤ n := by
  rw [poolRun]
  have h : ∀ (ps : PoolState), runningCount ps f ≤ n →
      runningCount (events.foldl (applyPoolEvent reg) ps) f ≤ n := by
    induction events with
    | nil => exact fun ps h => h
    | cons e es ih =>
      intro ps h
      exact ih _ (runningCount_applyPoolEvent_le reg ps e f n hreg h)
  exact h poolInit (by simp [runningCount, poolInit])

theorem length_filter_eraseP_of_disjoint {α : Type} (p q : α → Bool)
    (l : List α) (hpq : ∀ a, p a = true → q a = false) :
    (l.eraseP p).filter q = l.filter q := by
  induction l with
  | nil => simp
  | cons a l ih =>
    rw [List.eraseP_cons]
    cases hp : p a with
    | true =>
      simp only [cond_true]
      rw [List.filter_cons, if_neg (by simp [hpq a hp])]
    | false =>
      simp only [cond_false]
      rw [List.filter_cons, List.filter_cons]
      split_ifs with hq
      · rw [ih]
      · exact ih

/-- Pools of distinct functions are independent: an event of function `f`
never changes the count of `g ≠ f`. -/
theorem runningCount_other_function (reg : List (String × Nat))
    (ps : PoolState) (f g tid : String) (hfg : f ≠ g) :
    runningCount (applyPoolEvent reg ps (.start f tid)) g =
      runningCount ps g ∧
    runningCount (applyPoolEvent reg ps (.finish f tid)) g =
      runningCount ps g := by
  constructor
  · rw [applyPoolEvent]
    cases hf : lookupPoolSize reg f with
    | none => rfl
    | some m =>
      simp only []
      split_ifs with hlt
      · rw [runningCount, List.filter_cons, if_neg (by simp [hfg])]
        rfl
      · rfl
  · rw [applyPoolEvent, runningCount, runningCount]
    rw [length_filter_eraseP_of_disjoint]
    intro a ha
    have h1 : a.1 = f := by
      have := (Bool.and_eq_true _ _).mp ha
      simpa using this.1
    simp [h1, hfg]

end Taskman

/-- C4: for every function registered with `pool_size = N`, no sequence of
pool events ever yields more than `N` concurrent `running` executions of
that function; events of one function never change another function's
count; and the maintenance plugin registers `vacuum_worker`,
`analyze_worker` and `reindex_worker` each with `pool_size = 10`. -/
theorem pool_size_bounds_running :
    (∀ (reg : List (String × Nat)) (events : List Taskman.PoolEvent)
       (f : String) (n : Nat),
      Taskman.lookupPoolSize reg f = some n →
      Taskman.runningCount (Taskman.poolRun reg events) f ≤ n) ∧
    (∀ (reg : List (String × Nat)) (ps : Taskman.PoolState)
       (f g tid : String), f ≠ g →
      Taskman.runningCount
          (Taskman.applyPoolEvent reg ps (.start f tid)) g =
        Taskman.runningCount ps g ∧
      Taskman.runningCount
          (Taskman.applyPoolEvent reg ps (.finish f tid)) g =
        Taskman.runningCount ps g) ∧
    (Taskman.lookupPoolSize maintenanceRegistry "vacuum_worker" = some 10 ∧
     Taskman.lookupPoolSize maintenanceRegistry "analyze_worker" = some 10 ∧
     Taskman.lookupPoolSize maintenanceRegistry "reindex_worker" = some 10) :=
  ⟨Taskman.runningCount_poolRun_le,
   fun reg ps f g tid hfg =>
     Taskman.runningCount_other_function reg ps f g tid hfg,
   rfl, rfl, rfl⟩

/-- Witness for C4: submitting 15 simultaneous start events for
`vacuum_worker` leaves at most 10 (in fact exactly 10) running, and no
`analyze_worker` execution. -/
theorem pool_size_bounds_running_witness :
    Taskman.runningCount
        (Taskman.poolRun maintenanceRegistry
          ((List.range 15).map
            (fun i => Taskman.PoolEvent.start "vacuum_worker" (toString i))))
        "vacuum_worker" ≤ 10 :=
  pool_size_bounds_running.1 maintenanceRegistry _ "vacuum_worker" 10 rfl

/-! ## C9 — add_values merges only missing values -/

namespace Cfg

theorem getValue_ensureSection (c : MergedConfiguration)
    (sect sect' name' : String) :
    getValue (ensureSection c sect) sect' name' = getValue c sect' name' := by
  by_cases h : sect' = sect
  · subst h
    cases hc : c.sections sect' <;> simp [getValue, ensureSection, hc]
  · simp [getValue, ensureSection, h]

theorem getValue_setValue_other (c : MergedConfiguration)
    (sect name v sect' name' : String)
    (h : ¬(sect' = sect ∧ name' = name)) :
    getValue (setValue c sect name v) sect' name' =
      getValue c sect' name' := by
  by_cases hs : sect' = sect
  · subst hs
    have hn : ¬(name' = name) := fun hn => h ⟨rfl, hn⟩
    cases hc : c.sections sect' <;> simp [getValue, setValue, hn, hc]
  · simp [getValue, setValue, hs]

/-- `mergeMissing` never changes a slot that is already set. -/
theorem getValue_mergeMissing_preserves (c : MergedConfiguration)
    (sect name v sect' name' v' : String)
    (h : getValue c sect' name' = some v') :
    getValue (mergeMissing c sect name v) sect' name' = some v' := by
  rw [mergeMissing]
  cases hg : getValue c sect name with
  | some w =>
    rw [getValue_ensureSection]
    exact h
  | none =>
    by_cases he : sect' = sect ∧ name' = name
    · rw [he.1, he.2] at h
      rw [h] at hg
      exact Option.noConfusion hg
    · rw [getValue_setValue_other c sect name v sect' name' he]
      exact h

/-- `add_values` never changes a slot that is already set. -/
theorem add_values_preserves (specs : List (String × OptionSpec))
    (values : List Value) :
    ∀ (c c' : MergedConfiguration),
      add_values specs c values = .ok c' →
      ∀ (sect name v : String), getValue c sect name = some v →
        getValue c' sect name = some v := by
  induction values with
  | nil =>
    intro c c' hc sect name v h
    simp only [add_values] at hc
    injection hc with hc
    rw [← hc]
    exact h
  | cons w ws ih =>
    intro c c' hc sect name v h
    cases hl : lookupSpec specs w.name with
    | none =>
      simp only [add_values, hl] at hc
      exact Except.noConfusion hc
    | some spec =>
      simp only [add_values, hl] at hc
      exact ih _ _ hc sect name v
        (getValue_mergeMissing_preserves c spec.sect spec.name w.value
          sect name v h)

end Cfg

/-- C9: `MergedConfiguration.add_values` merges only missing values — a
slot already set keeps its value — and consequently in
`MergedConfiguration.load` the defaults merged last never override a value
established by phase 1 (command-line args or the configuration file). -/
theorem add_values_never_overrides (specs : List (String × Cfg.OptionSpec)) :
    (∀ (values : List Cfg.Value) (c c' : Cfg.MergedConfiguration)
       (sect name v : String),
      Cfg.getValue c sect name = some v →
      Cfg.add_values specs c values = .ok c' →
      Cfg.getValue c' sect name = some v) ∧
    (∀ (args : List Cfg.Value) (fc : Cfg.FileConfig) (pluginsConf : String)
       (c c₁ c' : Cfg.MergedConfiguration) (sect name v : String),
      Cfg.load_phase1 specs args fc pluginsConf c = .ok c₁ →
      Cfg.getValue c₁ sect name = some v →
      Cfg.load specs args fc pluginsConf c = .ok c' →
      Cfg.getValue c' sect name = some v) := by
  constructor
  · intro values c c' sect name v h hc
    exact Cfg.add_values_preserves specs values c c' hc sect name v h
  · intro args fc pluginsConf c c₁ c' sect name v h1 hv hl
    simp only [Cfg.load, h1] at hl
    cases hd : Cfg.add_values specs c₁ (Cfg.iter_defaults specs) with
    | error e =>
      simp only [hd] at hl
      exact Except.noConfusion hl
    | ok c₂ =>
      simp only [hd] at hl
      injection hl with hl
      rw [← hl]
      exact Cfg.add_values_preserves specs (Cfg.iter_defaults specs) c₁ c₂
        hd sect name v hv

/-- Witness for C9: a `temboard.port` already set (e.g. from args) survives
merging the spec defaults — the default `8888` does not override `443`. -/
theorem add_values_never_overrides_witness :
    Cfg.getValue
        (Cfg.ensureSection
          ⟨fun s => if s = "temboard"
              then some (fun n => if n = "port" then some "443" else none)
              else none, none, false⟩
          "temboard")
        "temboard" "port" = some "443" :=
  (add_values_never_overrides
      [("temboard_port", ⟨"temboard", "port", "8888"⟩)]).1
    [⟨"temboard_port", "8888", "defaults"⟩]
    ⟨fun s => if s = "temboard"
        then some (fun n => if n = "port" then some "443" else none)
        else none, none, false⟩
    (Cfg.ensureSection
      ⟨fun s => if s = "temboard"
          then some (fun n => if n = "port" then some "443" else none)
          else none, none, false⟩
      "temboard")
    "temboard" "port" "443" rfl rfl

/-! ## C10 — post_pg_ident backs up before overwriting -/

theorem ne_append_previous (s : String) : s ≠ s ++ ".previous" := by
  intro h
  have hlen := congrArg String.length h
  rw [String.length_append] at hlen
  have : (".previous" : String).length = 9 := rfl
  omega

/-- C10: `post_pg_ident` with a `content` field writes the ident file's
previous content to `<ident_file>.previous` and then overwrites the ident
file with the posted content; without `content` it raises HTTP 406, and
when the backup write fails it raises HTTP 500 — in both failure cases the
filesystem, in particular the ident file, is left unmodified. -/
theorem post_pg_ident_backup_then_overwrite (identFile : String)
    (post : List (String × String)) (writable : String → Bool)
    (fs : String → Option String) (old : String)
    (hr : fs identFile = some old) :
    (lookupField post "content" = none →
      post_pg_ident (some identFile) post writable fs =
        (fs, .error (.http 406 "Parameter 'content' not sent."))) ∧
    (∀ content, lookupField post "content" = some content →
      (writable (identFile ++ ".previous") = false →
        post_pg_ident (some identFile) post writable fs =
          (fs, .error (.http 500 "Internal error."))) ∧
      (writable (identFile ++ ".previous") = true →
       writable identFile = true →
        (post_pg_ident (some identFile) post writable fs).1
            (identFile ++ ".previous") = some old ∧
        (post_pg_ident (some identFile) post writable fs).1 identFile =
          some content ∧
        (post_pg_ident (some identFile) post writable fs).2 = .ok true)) := by
  constructor
  · intro h
    simp only [post_pg_ident, h]
  · intro content hcontent
    constructor
    · intro hw
      simp only [post_pg_ident, hcontent, hr, hw]
      rfl
    · intro hw1 hw2
      simp only [post_pg_ident, hcontent, hr, hw1, hw2, if_true]
      refine ⟨?_, ?_, trivial⟩
      · rw [fsWrite, if_neg, fsWrite, if_pos rfl]
        exact fun hq => ne_append_previous identFile hq.symm
      · rw [fsWrite, if_pos rfl]

/-- Witness for C10 at a concrete filesystem: the previous ident content is
backed up and the file overwritten. -/
theorem post_pg_ident_backup_then_overwrite_witness :
    (post_pg_ident (some "/etc/pg_ident.conf") [("content", "new map")]
        (fun _ => true)
        (fun p => if p = "/etc/pg_ident.conf" then some "old map"
          else none)).1
      "/etc/pg_ident.conf.previous" = some "old map" ∧
    (post_pg_ident (some "/etc/pg_ident.conf") [("content", "new map")]
        (fun _ => true)
        (fun p => if p = "/etc/pg_ident.conf" then some "old map"
          else none)).1
      "/etc/pg_ident.conf" = some "new map" ∧
    (post_pg_ident (some "/etc/pg_ident.conf") [("content", "new map")]
        (fun _ => true)
        (fun p => if p = "/etc/pg_ident.conf" then some "old map"
          else none)).2 = .ok true := by
  have h := ((post_pg_ident_backup_then_overwrite "/etc/pg_ident.conf"
      [("content", "new map")] (fun _ => true)
      (fun p => if p = "/etc/pg_ident.conf" then some "old map" else none)
      "old map" rfl).2 "new map" rfl).2 rfl rfl
  exact ⟨h.1, h.2.1, h.2.2⟩
